import Mathlib

/-!
Shallow embedding of the MelodyPlayer library
(src/lib/MelodyPlayer/MelodyPlayer.h, src/lib/MelodyPlayer/MelodyPlayer.cpp).

The player is a nonblocking, polled note/melody/metronome driver for the
ESP32 ledc pwm subsystem.  The tone capability (`ledcWriteNote`, `ledcWrite`)
is modelled as a list of emitted commands; `millis()` is modelled as a `Nat`
argument supplied to each poll; the blocking `delay(ms)` after a completed
note is modelled as a returned pause length.  All C++ `uint32_t` arithmetic
is `Nat` with explicit `% 2^32` where a wrap can occur.
-/

namespace MelodyPlayer

/-- Arduino `note_t` pitch classes; `NOTE_MAX` is used as `REST` by the
player (`#define REST NOTE_MAX` in MelodyPlayer.h). -/
inductive note_t
  | NOTE_C | NOTE_Cs | NOTE_D | NOTE_Eb | NOTE_E | NOTE_F
  | NOTE_Fs | NOTE_G | NOTE_Gs | NOTE_A | NOTE_Bb | NOTE_B
  | NOTE_MAX
deriving DecidableEq, Repr

/-- `#define REST NOTE_MAX` (MelodyPlayer.h). -/
def REST : note_t := note_t.NOTE_MAX

/-- Note values: weight of a note in 64ths of a whole note
(`enum class N_LEN` in MelodyPlayer.h). -/
inductive N_LEN
  | N64 | N32 | N32d | N16 | N16d | N8 | N8d | N4 | N4d | N2 | N2d | N1 | N1d
deriving DecidableEq, Repr

/-- Underlying integer of each `N_LEN` enumerator
(`N64=1, N32=2, N32d=3, N16=4, N16d=6, N8=8, N8d=12, N4=16, N4d=24,
N2=32, N2d=48, N1=64, N1d=96`). -/
def N_LEN.toNat : N_LEN → Nat
  | .N64 => 1 | .N32 => 2 | .N32d => 3 | .N16 => 4 | .N16d => 6
  | .N8 => 8 | .N8d => 12 | .N4 => 16 | .N4d => 24 | .N2 => 32
  | .N2d => 48 | .N1 => 64 | .N1d => 96

/-- `const uint32_t N4_LEN = 16;` (MelodyPlayer.h). -/
def N4_LEN : Nat := 16

/-- `typedef struct { note_t note; uint8_t octave; N_LEN value; } musicNote;`. -/
structure musicNote where
  note : note_t
  octave : Nat
  value : N_LEN
deriving DecidableEq, Repr

/-- A command sent to the ledc tone capability.
`writeNote ch n o` models `ledcWriteNote(ch, n, o)` (start-tone: sets the
carrier frequency); `write ch d` models `ledcWrite(ch, d)` (sets the pwm
duty cycle: amplitude `d`, with `d = 0` meaning silence). -/
inductive Cmd
  | writeNote (channel : Nat) (note : note_t) (octave : Nat)
  | write (channel : Nat) (duty : Nat)
deriving DecidableEq, Repr

/-- Contract of the tone capability: `ledcWriteNote` returns a nonzero
frequency exactly when the note is a real pitch, and `0` when it is
`REST` (see the comment in `MelodyPlayer::playNote`). -/
def ledcWriteNoteOk (n : note_t) : Bool := n ≠ REST

/-- Width of the `uint32_t` machine word. -/
def U32 : Nat := 2 ^ 32

/-- C-style conversion of a (possibly negative) `int` value to `uint32_t`:
reduction modulo `2^32`.  Used for `(uint32_t)_tempo` in the player. -/
def toU32 (i : Int) : Nat := (i % (U32 : Int)).toNat

/-- Wraparound-safe unsigned elapsed time: the `uint32_t` computation
`now - start` (`millis() - _msStart`), i.e. subtraction modulo `2^32`. -/
def elapsed32 (now start : Nat) : Nat := (now + (U32 - start % U32)) % U32

/-- The private state of a `MelodyPlayer` object (MelodyPlayer.h).
`_pin` only feeds `ledcAttachPin` in the constructor and is omitted;
`_melody`/`_melodyLength` of the parameterless `playMelody(bool)` overload
are passed explicitly as a `List musicNote` to the polls that use them. -/
structure State where
  channel : Nat            -- `_channel`
  volume : Nat             -- `_volume`, 0..511
  msStart : Nat            -- `_msStart`
  msNoteGap : Nat          -- `_msNoteGap`, default 10
  noteCounter : Nat        -- `_noteCounter` (an `int`, only ever 0 or incremented)
  started : Bool           -- `_started`
  notePlayed : Bool        -- `_notePlayed`
  randomMode : Bool        -- `_random`
  tempo : Int              -- `_tempo` (a `TEMPO`, i.e. an `int` under the hood)
deriving DecidableEq, Repr

/-- `MelodyPlayer::setTempo(int nBeats)`: `_tempo = (TEMPO)nBeats;`.
The cast between `int` and the `int`-backed `enum class TEMPO` is
value-preserving, so the argument is stored as given. -/
def setTempoInt (nBeats : Int) (st : State) : State := { st with tempo := nBeats }

/-- `MelodyPlayer::setLegato(uint32_t msNoteGap)`:
`_msNoteGap = (msNoteGap <= 100) ? msNoteGap : 100;`. -/
def setLegato (msNoteGap : Nat) (st : State) : State :=
  { st with msNoteGap := if msNoteGap ≤ 100 then msNoteGap else 100 }

/-- The note-length target computed on each poll in `MelodyPlayer::playNote`:
`60000 * (uint32_t)n.value / N4_LEN / (uint32_t)_tempo`, in `uint32_t`
arithmetic (the product is reduced modulo `2^32`; each division
truncates). -/
def durationMs (v : N_LEN) (tempo : Int) : Nat :=
  60000 * v.toNat % U32 / N4_LEN / toU32 tempo

/-- `MelodyPlayer::playNote(musicNote n)`.  Returns the updated state, the
list of tone-capability commands issued during the poll, and the length in
ms of the blocking `delay` performed (0 when none).

```
if (_notePlayed) return;
if (! _started) {
    ledcWriteNote(_channel, n.note, n.octave) ? ledcWrite(_channel, _volume)
                                              : ledcWrite(_channel, 0);
    _msStart = millis(); _started = true; return;
}
if ((millis() - _msStart) > 60000 * (uint32_t)n.value / N4_LEN / (uint32_t)_tempo) {
    ledcWrite(_channel, 0); _started = false; _notePlayed = true;
    delay(_msNoteGap);
}
``` -/
def playNote (now : Nat) (n : musicNote) (st : State) : State × List Cmd × Nat :=
  if st.notePlayed then (st, [], 0)
  else if !st.started then
    ({ st with msStart := now, started := true },
     [Cmd.writeNote st.channel n.note n.octave,
      Cmd.write st.channel (if ledcWriteNoteOk n.note then st.volume else 0)], 0)
  else if elapsed32 now st.msStart > durationMs n.value st.tempo then
    ({ st with started := false, notePlayed := true },
     [Cmd.write st.channel 0], st.msNoteGap)
  else (st, [], 0)

/-- A placeholder note used only to translate the C++ array access
`m[_noteCounter]`, which the sequencer performs only under the guard
`_noteCounter < len`. -/
def dummyNote : musicNote := ⟨note_t.NOTE_C, 0, N_LEN.N64⟩

/-- `MelodyPlayer::playMelody(musicNote m[], int len, bool repeat)`.
`r` is the value returned by the Arduino `random(len)` call on this poll
(contract: uniform on `[0, len)`).

```
_notePlayed = false;
if (_noteCounter >= len) { if (repeat) _noteCounter = 0; return; }
if (! _random) playNote(m[_noteCounter]); else playNote(m[random(len)]);
if (_notePlayed) _noteCounter++;
``` -/
def playMelody (now : Nat) (m : List musicNote) (rpt : Bool) (r : Nat)
    (st : State) : State × List Cmd × Nat :=
  let st0 := { st with notePlayed := false }
  if st0.noteCounter ≥ m.length then
    (if rpt then { st0 with noteCounter := 0 } else st0, [], 0)
  else
    let res :=
      if !st0.randomMode then playNote now (m.getD st0.noteCounter dummyNote) st0
      else playNote now (m.getD r dummyNote) st0
    (if res.1.notePlayed then { res.1 with noteCounter := res.1.noteCounter + 1 }
     else res.1, res.2)

/-- `MelodyPlayer::playBeats()`.

```
if (! _started) {
    ledcWriteNote(0, NOTE_A, 7);
    ledcWrite(_channel, _volume);
    _started = true; _msStart = millis();
}
if ((millis() - _msStart) > 4)  mute();                        // ledcWrite(_channel, 0)
if ((millis() - _msStart) > 60000 / (uint32_t)_tempo) _started = false;
``` -/
def playBeats (now : Nat) (st : State) : State × List Cmd :=
  let trig :=
    if !st.started then
      ({ st with started := true, msStart := now },
       [Cmd.writeNote 0 note_t.NOTE_A 7, Cmd.write st.channel st.volume])
    else (st, ([] : List Cmd))
  let st1 := trig.1
  let cmds :=
    if elapsed32 now st1.msStart > 4 then trig.2 ++ [Cmd.write st1.channel 0]
    else trig.2
  let st2 :=
    if elapsed32 now st1.msStart > 60000 / toU32 st1.tempo then
      { st1 with started := false }
    else st1
  (st2, cmds)

/-- Times of the metronome's click start-edges (polls on which the trigger
branch of `playBeats` runs) over a list of poll times. -/
def beatEdges : List Nat → State → List Nat
  | [], _ => []
  | t :: ts, st =>
    if !st.started then t :: beatEdges ts (playBeats t st).1
    else beatEdges ts (playBeats t st).1

/-- The duration formula exactly as the specification words it:
`durationMs(relativeDuration, tempoBpm) = 60000 * relativeDuration / 16 / tempoBpm`
with truncating division at each step, left to right. -/
def durationMs_spec (d t : Nat) : Nat := 60000 * d / 16 / t

lemma U32_eq : U32 = 4294967296 := rfl

lemma elapsed32_self (n : Nat) : elapsed32 n n = 0 := by
  simp only [elapsed32, U32_eq]
  omega

lemma elapsed32_of_le {s t : Nat} (h : s ≤ t) (ht : t < U32) :
    elapsed32 t s = t - s := by
  simp only [elapsed32, U32_eq] at *
  omega

lemma elapsed32_wrap {s e : Nat} (hs : s < U32) (he : e < U32) :
    elapsed32 ((s + e) % U32) s = e := by
  simp only [elapsed32, U32_eq] at *
  omega

lemma elapsed32_nowrap {s e : Nat} (hs : s < U32) (he : e < U32) :
    elapsed32 (s + e) s = e := by
  simp only [elapsed32, U32_eq] at *
  omega

lemma N_LEN.toNat_le (v : N_LEN) : v.toNat ≤ 96 := by
  cases v <;> simp [N_LEN.toNat]

lemma playNote_noteCounter (now : Nat) (n : musicNote) (st : State) :
    (playNote now n st).1.noteCounter = st.noteCounter := by
  simp only [playNote]
  split
  · rfl
  · split
    · rfl
    · split <;> rfl

lemma playBeats_not_started {st : State} (h : st.started = false) (now : Nat) :
    playBeats now st =
      ({ st with started := true, msStart := now },
       [Cmd.writeNote 0 note_t.NOTE_A 7, Cmd.write st.channel st.volume]) := by
  simp [playBeats, h, elapsed32_self]

lemma playBeats_started {st : State} (h : st.started = true) (now : Nat) :
    playBeats now st =
      ((if elapsed32 now st.msStart > 60000 / toU32 st.tempo then
          { st with started := false } else st),
       (if elapsed32 now st.msStart > 4 then [Cmd.write st.channel 0] else [])) := by
  simp [playBeats, h]

lemma playBeats_started_snd {st : State} (h : st.started = true) (now : Nat) :
    (playBeats now st).2 =
      if elapsed32 now st.msStart > 4 then [Cmd.write st.channel 0] else [] := by
  rw [playBeats_started h]

lemma playBeats_started_fst {st : State} (h : st.started = true) (now : Nat) :
    (playBeats now st).1 =
      if elapsed32 now st.msStart > 60000 / toU32 st.tempo then
        { st with started := false } else st := by
  rw [playBeats_started h]

end MelodyPlayer

namespace MelodyPlayer

/-- C1 counterexample.  `setTempo(0)` on a player whose tempo is 114 leaves
the stored tempo equal to 0, not 114: a non-positive tempo is not rejected
and the previous valid tempo is not retained. -/
theorem setTempo_zero_not_rejected :
    (setTempoInt 0 ⟨5, 100, 0, 10, 0, false, false, false, 114⟩).tempo = 0 ∧
    (setTempoInt 0 ⟨5, 100, 0, 10, 0, false, false, false, 114⟩).tempo ≠ 114 := by
  exact ⟨rfl, by decide⟩

/-- C1 (amended): `setTempo(int)` stores its argument unconditionally —
`_tempo = (TEMPO)nBeats` — for every argument, including non-positive ones;
no field other than the tempo changes and no validation occurs, so a
subsequent poll divides by the stored value converted to `uint32_t`
(a division by zero when the stored tempo is 0). -/
theorem setTempo_stores_argument (b : Int) (st : State) :
    setTempoInt b st = { st with tempo := b } := rfl

/-- C2: on each poll the target note duration computed by `playNote` equals
the spec formula `60000 * d / 16 / t` with truncating division applied
left to right, for every relative duration `d` (an `N_LEN` value) and every
positive tempo `t` representable in a C++ `int`; in particular a quarter
note (`d = 16`) at 114 BPM lasts exactly 526 ms. -/
theorem durationMs_matches_spec (v : N_LEN) (t : Int)
    (h0 : 0 < t) (h1 : t < 2 ^ 31) :
    durationMs v t = durationMs_spec v.toNat t.toNat ∧
    durationMs_spec 16 114 = 526 ∧
    durationMs N_LEN.N4 114 = 526 := by
  refine ⟨?_, by decide, by decide⟩
  have hv : v.toNat ≤ 96 := N_LEN.toNat_le v
  have hmod : 60000 * v.toNat % U32 = 60000 * v.toNat := by
    apply Nat.mod_eq_of_lt
    simp only [U32_eq]
    omega
  have ht : toU32 t = t.toNat := by
    simp only [toU32, U32]
    rw [Int.emod_eq_of_lt (le_of_lt h0) (by norm_num at h1 ⊢; omega)]
  simp only [durationMs, durationMs_spec, N4_LEN, hmod, ht]

/-- C2 witness: the theorem applied to a quarter note at 114 BPM. -/
theorem durationMs_matches_spec_witness :
    durationMs N_LEN.N4 114 = durationMs_spec (N_LEN.toNat N_LEN.N4) (Int.toNat 114) ∧
    durationMs_spec 16 114 = 526 ∧ durationMs N_LEN.N4 114 = 526 :=
  durationMs_matches_spec N_LEN.N4 114 (by decide) (by decide)

/-- C6: for a note whose pitch is `REST`, no poll of `playNote` ever issues
a nonzero amplitude command: under the tone-capability contract
(`ledcWriteNote` reports failure on `REST`), the start poll issues
`ledcWrite(channel, 0)` — silence — instead of the configured volume, the
completion poll issues `ledcWrite(channel, 0)`, and every other poll issues
no amplitude command at all. -/
theorem rest_never_nonzero_amplitude (now : Nat) (n : musicNote) (st : State)
    (hn : n.note = REST) :
    ∀ ch a, Cmd.write ch a ∈ (playNote now n st).2.1 → a = 0 := by
  intro ch a hmem
  simp only [playNote] at hmem
  split at hmem
  · simp at hmem
  · split at hmem
    · have : ledcWriteNoteOk n.note = false := by
        simp [ledcWriteNoteOk, hn]
      simp [this] at hmem
      exact hmem.2
    · split at hmem
      · simp at hmem
        exact hmem.2
      · simp at hmem

/-- C6 witness: the start poll for a rest quarter note with volume 100
issues only the amplitude-0 command. -/
theorem rest_never_nonzero_amplitude_witness :
    (⟨note_t.NOTE_MAX, 4, N_LEN.N4⟩ : musicNote).note = REST ∧
    ∀ ch a, Cmd.write ch a ∈
      (playNote 0 ⟨note_t.NOTE_MAX, 4, N_LEN.N4⟩
        ⟨5, 100, 0, 10, 0, false, false, false, 114⟩).2.1 → a = 0 :=
  ⟨rfl, rest_never_nonzero_amplitude 0 ⟨note_t.NOTE_MAX, 4, N_LEN.N4⟩
    ⟨5, 100, 0, 10, 0, false, false, false, 114⟩ rfl⟩

/-- C8: elapsed time in the note player and the metronome is the
`uint32_t` subtraction `millis() - _msStart` modulo `2^32` (`elapsed32`),
so for every start time `s < 2^32` and true elapsed time `e < 2^32` the
computed value at the wrapped counter reading `(s + e) % 2^32` is exactly
`e`, and a poll of `playNote` or `playBeats` at the wrapped reading is
indistinguishable from a poll at the unwrapped reading `s + e`. -/
theorem elapsed_wraparound_safe (s e : Nat) (n : musicNote) (st : State)
    (hs : s < U32) (he : e < U32) (hst : st.started = true)
    (hms : st.msStart = s) :
    elapsed32 ((s + e) % U32) s = e ∧
    playNote ((s + e) % U32) n st = playNote (s + e) n st ∧
    playBeats ((s + e) % U32) st = playBeats (s + e) st := by
  have h1 := elapsed32_wrap hs he
  have h2 := elapsed32_nowrap hs he
  refine ⟨h1, ?_, ?_⟩
  · simp [playNote, hst, hms, h1, h2]
  · rw [playBeats_started hst, playBeats_started hst, hms, h1, h2]

/-- C8 witness: a tone started 500 ms before the counter's rollover, read
296 ms after the rollover, yields elapsed time 796. -/
theorem elapsed_wraparound_safe_witness :
    elapsed32 ((4294966796 + 796) % U32) 4294966796 = 796 ∧
    playNote ((4294966796 + 796) % U32) ⟨note_t.NOTE_A, 4, N_LEN.N4⟩
        ⟨5, 100, 4294966796, 10, 0, true, false, false, 114⟩ =
      playNote (4294966796 + 796) ⟨note_t.NOTE_A, 4, N_LEN.N4⟩
        ⟨5, 100, 4294966796, 10, 0, true, false, false, 114⟩ ∧
    playBeats ((4294966796 + 796) % U32)
        ⟨5, 100, 4294966796, 10, 0, true, false, false, 114⟩ =
      playBeats (4294966796 + 796)
        ⟨5, 100, 4294966796, 10, 0, true, false, false, 114⟩ :=
  elapsed_wraparound_safe 4294966796 796 ⟨note_t.NOTE_A, 4, N_LEN.N4⟩
    ⟨5, 100, 4294966796, 10, 0, true, false, false, 114⟩
    (by decide) (by decide) rfl rfl

/-- C10: the metronome's trigger poll sends its frequency command
(`ledcWriteNote(0, NOTE_A, 7)`) to hard-coded channel 0 while its amplitude
command goes to the configured channel `_channel`; every command of a
non-trigger poll (the `mute()` silence) also goes to `_channel`; so when
`_channel ≠ 0` the frequency command is never addressed to the player's
own channel. -/
theorem metronome_channel_mismatch (now : Nat) (st : State) :
    (st.started = false →
      (playBeats now st).2 =
        [Cmd.writeNote 0 note_t.NOTE_A 7, Cmd.write st.channel st.volume]) ∧
    (st.started = true →
      ∀ c ∈ (playBeats now st).2, c = Cmd.write st.channel 0) ∧
    (st.started = false → st.channel ≠ 0 →
      ∀ nt o, Cmd.writeNote st.channel nt o ∉ (playBeats now st).2) := by
  refine ⟨fun h => ?_, fun h c hc => ?_, fun h hch nt o hmem => ?_⟩
  · rw [playBeats_not_started h]
  · rw [playBeats_started_snd h] at hc
    split at hc
    · simpa using hc
    · simp at hc
  · rw [playBeats_not_started h] at hmem
    simp at hmem
    exact hch hmem.1

/-- Spacing invariant for the metronome trace: starting from a state whose
click began at `msStart`, with `p` the most recent poll time (at most one
beat interval past the start when the flag is still set, at most one poll
gap past the clearing poll when it has been cleared), the remaining click
start-edges are spaced more than one beat interval and at most one beat
interval plus two poll gaps apart. -/
lemma beatEdges_aux (Δ ι : Nat) (τ : Int) (hι : ι = 60000 / toU32 τ) :
    ∀ (ts : List Nat) (st : State) (p : Nat),
      st.tempo = τ → st.msStart < U32 →
      ((st.started = true ∧ st.msStart ≤ p ∧ p ≤ st.msStart + ι) ∨
       (st.started = false ∧ st.msStart + ι < p ∧ p ≤ st.msStart + ι + Δ)) →
      List.Chain' (fun a b => a < b ∧ b ≤ a + Δ) (p :: ts) →
      (∀ t ∈ ts, t < U32) →
      List.Chain' (fun a b => a + ι < b ∧ b ≤ a + ι + 2 * Δ)
        (st.msStart :: beatEdges ts st) := by
  intro ts
  induction ts with
  | nil =>
    intro st p _ _ _ _ _
    simp [beatEdges]
  | cons t ts ih =>
    intro st p hτ hms hinv hch hlt
    obtain ⟨⟨hpt, hptΔ⟩, hch'⟩ := List.chain'_cons.mp hch
    have htlt : t < U32 := hlt t (by simp)
    have hlt' : ∀ u ∈ ts, u < U32 := fun u hu => hlt u (by simp [hu])
    have hcond : 60000 / toU32 st.tempo = ι := by
      rw [hτ, ← hι]
    rcases hinv with ⟨hA, hsp, hpι⟩ | ⟨hB, hιp, hpΔ⟩
    · -- started: this poll fires nothing; it may clear the flag
      have hst_le : st.msStart ≤ t := by omega
      have hel : elapsed32 t st.msStart = t - st.msStart :=
        elapsed32_of_le hst_le htlt
      simp only [beatEdges, hA, Bool.not_true, Bool.false_eq_true, if_false]
      rw [playBeats_started_fst hA, hel, hcond]
      by_cases hc : t - st.msStart > ι
      · rw [if_pos hc]
        refine ih { st with started := false } t hτ hms
          (Or.inr ⟨rfl, ?_, ?_⟩) hch' hlt'
        · show st.msStart + ι < t
          omega
        · show t ≤ st.msStart + ι + Δ
          omega
      · rw [if_neg hc]
        exact ih st t hτ hms (Or.inl ⟨hA, by omega, by omega⟩) hch' hlt'
    · -- cleared: this poll is the next start-edge
      simp only [beatEdges, hB, Bool.not_false, if_true]
      rw [playBeats_not_started hB]
      refine List.chain'_cons.mpr ⟨⟨by omega, by omega⟩, ?_⟩
      refine ih { st with started := true, msStart := t } t hτ htlt
        (Or.inl ⟨rfl, ?_, ?_⟩) hch' hlt'
      · show t ≤ t
        exact le_refl t
      · show t ≤ t + ι
        omega

/-- C7 counterexample.  Tempo 60 BPM (beat interval 1000 ms), polls every
10 ms starting at 0: the first two click start-edges are at 0 and 1020 —
the clearing poll at 1010 and the re-trigger poll at 1020 each cost one
poll interval — so consecutive start-edges are NOT within one poll
interval (1010 ms) of the beat interval as the claim states. -/
theorem beat_spacing_counterexample :
    beatEdges ((List.range 104).map (fun k => 10 * k))
        ⟨5, 100, 0, 10, 0, false, false, false, 60⟩ = [0, 1020] ∧
    List.Chain' (fun a b => a < b ∧ b ≤ a + 10)
      ((List.range 104).map (fun k => 10 * k)) ∧
    ¬(1020 ≤ 0 + 60000 / toU32 60 + 10) := by
  refine ⟨by decide, ?_, by decide⟩
  rw [List.chain'_map]
  have h104 : (104 : Nat) = 103 + 1 := rfl
  rw [h104, List.chain'_range_succ]
  intro m _
  omega

/-- C7 (amended): a metronome poll with the started flag clear triggers the
reference pitch at the configured amplitude, records the start time and
sets the flag; a poll with the flag set issues one silence command exactly
when `elapsed > 4` ms and clears the flag exactly when
`elapsed > 60000 / tempo` ms; consequently, for polls spaced at most `Δ`
apart, consecutive click start-edges are spaced more than `60000 / tempo`
ms and at most `60000 / tempo + 2Δ` ms apart (one poll to clear the flag
plus one poll to re-trigger), and each click is silenced by the first poll
more than 4 ms after its start-edge. -/
theorem metronome_poll_and_spacing :
    (∀ (now : Nat) (st : State), st.started = false →
      playBeats now st =
        ({ st with started := true, msStart := now },
         [Cmd.writeNote 0 note_t.NOTE_A 7, Cmd.write st.channel st.volume])) ∧
    (∀ (now : Nat) (st : State), st.started = true →
      playBeats now st =
        ((if elapsed32 now st.msStart > 60000 / toU32 st.tempo then
            { st with started := false } else st),
         (if elapsed32 now st.msStart > 4 then [Cmd.write st.channel 0]
          else []))) ∧
    (∀ (Δ : Nat) (ts : List Nat) (st : State), st.started = false →
      List.Chain' (fun a b => a < b ∧ b ≤ a + Δ) ts →
      (∀ t ∈ ts, t < U32) →
      List.Chain' (fun a b => a + 60000 / toU32 st.tempo < b ∧
          b ≤ a + 60000 / toU32 st.tempo + 2 * Δ) (beatEdges ts st)) := by
  refine ⟨fun now st h => playBeats_not_started h now,
    fun now st h => playBeats_started h now,
    fun Δ ts st h hch hlt => ?_⟩
  cases ts with
  | nil => simp [beatEdges]
  | cons t0 ts' =>
    have ht0 : t0 < U32 := hlt t0 (by simp)
    simp only [beatEdges, h, Bool.not_false, if_true]
    rw [playBeats_not_started h]
    refine beatEdges_aux Δ (60000 / toU32 st.tempo) st.tempo rfl ts'
      { st with started := true, msStart := t0 } t0 rfl ht0
      (Or.inl ⟨rfl, ?_, ?_⟩) hch (fun u hu => hlt u (by simp [hu]))
    · show t0 ≤ t0
      exact le_refl t0
    · show t0 ≤ t0 + 60000 / toU32 st.tempo
      exact Nat.le_add_right t0 _

/-- C7 witness: the amended theorem at a fresh metronome at tempo 60 BPM
(trigger poll at 0), at a sounding click polled at 1005, and at the poll
trace `[0, 10, 20]` with poll gap 10. -/
theorem metronome_poll_and_spacing_witness :
    playBeats 0 ⟨5, 100, 0, 10, 0, false, false, false, 60⟩ =
      (⟨5, 100, 0, 10, 0, true, false, false, 60⟩,
       [Cmd.writeNote 0 note_t.NOTE_A 7, Cmd.write 5 100]) ∧
    playBeats 1005 ⟨5, 100, 0, 10, 0, true, false, false, 60⟩ =
      ((if elapsed32 1005 0 > 60000 / toU32 60 then
          ⟨5, 100, 0, 10, 0, false, false, false, 60⟩
        else ⟨5, 100, 0, 10, 0, true, false, false, 60⟩),
       (if elapsed32 1005 0 > 4 then [Cmd.write 5 0] else [])) ∧
    List.Chain' (fun a b => a + 60000 / toU32 60 < b ∧
        b ≤ a + 60000 / toU32 60 + 2 * 10)
      (beatEdges [0, 10, 20] ⟨5, 100, 0, 10, 0, false, false, false, 60⟩) :=
  ⟨metronome_poll_and_spacing.1 0 ⟨5, 100, 0, 10, 0, false, false, false, 60⟩ rfl,
   metronome_poll_and_spacing.2.1 1005 ⟨5, 100, 0, 10, 0, true, false, false, 60⟩ rfl,
   metronome_poll_and_spacing.2.2 10 [0, 10, 20]
     ⟨5, 100, 0, 10, 0, false, false, false, 60⟩ rfl
     (by simp [List.chain'_cons]) (by decide)⟩

/-- C3 counterexample.  With tempo 114 and a quarter note the target is
526 ms; a poll in the Sounding state with elapsed time exactly equal to the
target (`elapsed >= target` per the claim) issues no command, stays in the
Sounding state and does not report complete — the code completes only on
the strict inequality `elapsed > target`. -/
theorem sounding_boundary_not_complete :
    elapsed32 526 0 = durationMs N_LEN.N4 114 ∧
    playNote 526 ⟨note_t.NOTE_A, 4, N_LEN.N4⟩
        ⟨5, 100, 0, 10, 0, true, false, false, 114⟩ =
      (⟨5, 100, 0, 10, 0, true, false, false, 114⟩, [], 0) := by
  exact ⟨by decide, by decide⟩

/-- C3 (amended): on a poll in the Sounding state, if `elapsed <= target`
the poll issues no command, changes no state and does not report complete;
if `elapsed > target` the poll issues exactly one silence command, returns
the FSM to Idle (`started := false`), pauses for the configured legato gap
and reports complete (`notePlayed := true`). -/
theorem sounding_poll_behaviour (now : Nat) (n : musicNote) (st : State)
    (hs : st.started = true) (hp : st.notePlayed = false) :
    (elapsed32 now st.msStart ≤ durationMs n.value st.tempo →
      playNote now n st = (st, [], 0)) ∧
    (elapsed32 now st.msStart > durationMs n.value st.tempo →
      playNote now n st =
        ({ st with started := false, notePlayed := true },
         [Cmd.write st.channel 0], st.msNoteGap)) := by
  refine ⟨fun h => ?_, fun h => ?_⟩
  · have hlt : ¬(elapsed32 now st.msStart > durationMs n.value st.tempo) := by omega
    simp [playNote, hs, hp, hlt]
  · simp [playNote, hs, hp, h]

/-- C3 witness: the amended theorem at the Sounding state of a quarter note
at tempo 114 started at time 0: the poll at 526 (elapsed = target) is a
no-op, the poll at 527 (elapsed > target) completes the note. -/
theorem sounding_poll_behaviour_witness :
    playNote 526 ⟨note_t.NOTE_A, 4, N_LEN.N4⟩
        ⟨5, 100, 0, 10, 0, true, false, false, 114⟩ =
      (⟨5, 100, 0, 10, 0, true, false, false, 114⟩, [], 0) ∧
    playNote 527 ⟨note_t.NOTE_A, 4, N_LEN.N4⟩
        ⟨5, 100, 0, 10, 0, true, false, false, 114⟩ =
      (⟨5, 100, 0, 10, 0, false, true, false, 114⟩, [Cmd.write 5 0], 10) :=
  ⟨(sounding_poll_behaviour 526 ⟨note_t.NOTE_A, 4, N_LEN.N4⟩
      ⟨5, 100, 0, 10, 0, true, false, false, 114⟩ rfl rfl).1 (by decide),
   (sounding_poll_behaviour 527 ⟨note_t.NOTE_A, 4, N_LEN.N4⟩
      ⟨5, 100, 0, 10, 0, true, false, false, 114⟩ rfl rfl).2 (by decide)⟩

/-- C4: terminal and cursor behaviour of the melody poll.  When the cursor
has reached the end (`i >= N`): with repeat the poll only resets the cursor
to 0 and issues no command; without repeat the poll issues no command,
leaves the cursor and the whole playback state (everything but the per-poll
completion flag, which every melody poll clears on entry) unchanged, and
its post-state is a fixed point of the poll — every further poll is an
idempotent no-op.  When `i < N` the cursor either stays or advances by
exactly one, so with repeat=false it takes each value `0..N-1` exactly once
before the terminal state. -/
theorem melody_terminal_behaviour (now : Nat) (m : List musicNote) (rpt : Bool)
    (r : Nat) (st : State) :
    (st.noteCounter ≥ m.length → rpt = true →
      playMelody now m rpt r st =
        ({ st with notePlayed := false, noteCounter := 0 }, [], 0)) ∧
    (st.noteCounter ≥ m.length → rpt = false →
      playMelody now m rpt r st = ({ st with notePlayed := false }, [], 0) ∧
      ∀ now' r', playMelody now' m false r' { st with notePlayed := false } =
        ({ st with notePlayed := false }, [], 0)) ∧
    (st.noteCounter < m.length →
      (playMelody now m rpt r st).1.noteCounter = st.noteCounter ∨
      (playMelody now m rpt r st).1.noteCounter = st.noteCounter + 1) := by
  refine ⟨fun h hr => ?_, fun h hr => ⟨?_, fun now' r' => ?_⟩, fun h => ?_⟩
  · simp [playMelody, h, hr]
  · simp [playMelody, h, hr]
  · simp [playMelody, h]
  · have h' : ¬(st.noteCounter ≥ m.length) := by omega
    simp only [playMelody, ge_iff_le, h', if_false]
    split
    · split
      · right
        rw [playNote_noteCounter]
      · left
        rw [playNote_noteCounter]
    · split
      · right
        rw [playNote_noteCounter]
      · left
        rw [playNote_noteCounter]

/-- C4 witness: the theorem at a one-note melody — the terminal cursor
position 1 with repeat, the same position without repeat (idempotent
no-op), and cursor position 0 (step by at most one). -/
theorem melody_terminal_behaviour_witness :
    playMelody 0 [⟨note_t.NOTE_A, 4, N_LEN.N4⟩] true 0
        ⟨5, 100, 0, 10, 1, false, false, false, 114⟩ =
      (⟨5, 100, 0, 10, 0, false, false, false, 114⟩, [], 0) ∧
    (playMelody 0 [⟨note_t.NOTE_A, 4, N_LEN.N4⟩] false 0
        ⟨5, 100, 0, 10, 1, false, false, false, 114⟩ =
      (⟨5, 100, 0, 10, 1, false, false, false, 114⟩, [], 0) ∧
     ∀ now' r', playMelody now' [⟨note_t.NOTE_A, 4, N_LEN.N4⟩] false r'
        ⟨5, 100, 0, 10, 1, false, false, false, 114⟩ =
      (⟨5, 100, 0, 10, 1, false, false, false, 114⟩, [], 0)) ∧
    ((playMelody 0 [⟨note_t.NOTE_A, 4, N_LEN.N4⟩] false 0
        ⟨5, 100, 0, 10, 0, false, false, false, 114⟩).1.noteCounter = 0 ∨
     (playMelody 0 [⟨note_t.NOTE_A, 4, N_LEN.N4⟩] false 0
        ⟨5, 100, 0, 10, 0, false, false, false, 114⟩).1.noteCounter = 0 + 1) :=
  ⟨(melody_terminal_behaviour 0 [⟨note_t.NOTE_A, 4, N_LEN.N4⟩] true 0
      ⟨5, 100, 0, 10, 1, false, false, false, 114⟩).1 (by decide) rfl,
   (melody_terminal_behaviour 0 [⟨note_t.NOTE_A, 4, N_LEN.N4⟩] false 0
      ⟨5, 100, 0, 10, 1, false, false, false, 114⟩).2.1 (by decide) rfl,
   (melody_terminal_behaviour 0 [⟨note_t.NOTE_A, 4, N_LEN.N4⟩] false 0
      ⟨5, 100, 0, 10, 0, false, false, false, 114⟩).2.2 (by decide)⟩

/-- C5: note selection of the melody poll below the end of the melody.
In Sequential mode the poll's observable output (commands and pause) is
that of `playNote` on the note at the cursor; in Random mode it is that of
`playNote` on the note at the random draw `r` — in bounds whenever
`r < N`, which the Arduino `random(len)` contract guarantees — and is
independent of the cursor; in both modes the cursor advances by one exactly
when the driven note reports complete on this poll, and stays otherwise. -/
theorem melody_note_selection (now : Nat) (m : List musicNote) (rpt : Bool)
    (r : Nat) (st : State) (j : Nat) (hi : st.noteCounter < m.length) :
    (st.randomMode = false →
      (playMelody now m rpt r st).2 =
        (playNote now (m.get ⟨st.noteCounter, hi⟩)
          { st with notePlayed := false }).2) ∧
    (st.randomMode = true → ∀ hr : r < m.length,
      (playMelody now m rpt r st).2 =
        (playNote now (m.get ⟨r, hr⟩) { st with notePlayed := false }).2) ∧
    (st.randomMode = true → j < m.length →
      (playMelody now m rpt r st).2 =
        (playMelody now m rpt r { st with noteCounter := j }).2) ∧
    ((playMelody now m rpt r st).1.noteCounter =
      if (if st.randomMode = false then
            playNote now (m.getD st.noteCounter dummyNote)
              { st with notePlayed := false }
          else
            playNote now (m.getD r dummyNote)
              { st with notePlayed := false }).1.notePlayed
       then st.noteCounter + 1 else st.noteCounter) := by
  have h' : ¬(st.noteCounter ≥ m.length) := by omega
  refine ⟨fun hm => ?_, fun hm hr => ?_, fun hm hj => ?_, ?_⟩
  · simp [playMelody, h', hm, List.getElem?_eq_getElem hi, List.get_eq_getElem]
  · simp [playMelody, h', hm, List.getElem?_eq_getElem hr, List.get_eq_getElem]
  · have hj' : ¬(j ≥ m.length) := by omega
    simp [playMelody, playNote, h', hj', hm]
    split
    · rfl
    · split <;> rfl
  · rcases hb : st.randomMode with _ | _ <;>
      simp [playMelody, h', hb] <;>
      split <;>
      simp [playNote_noteCounter]

/-- C5 witness: the theorem at a two-note melody with cursor 0 — once in
Sequential mode (the cursor note is driven, the cursor advances by the
completion report) and once in Random mode with draw 1 (the drawn note is
driven, independently of the cursor). -/
theorem melody_note_selection_witness :
    (playMelody 0 [⟨note_t.NOTE_A, 4, N_LEN.N4⟩, ⟨note_t.NOTE_C, 5, N_LEN.N8⟩]
        false 1 ⟨5, 100, 0, 10, 0, false, false, false, 114⟩).2 =
      (playNote 0 ([⟨note_t.NOTE_A, 4, N_LEN.N4⟩, ⟨note_t.NOTE_C, 5, N_LEN.N8⟩].get
          ⟨0, by decide⟩) ⟨5, 100, 0, 10, 0, false, false, false, 114⟩).2 ∧
    (playMelody 0 [⟨note_t.NOTE_A, 4, N_LEN.N4⟩, ⟨note_t.NOTE_C, 5, N_LEN.N8⟩]
        false 1 ⟨5, 100, 0, 10, 0, false, false, true, 114⟩).2 =
      (playNote 0 ([⟨note_t.NOTE_A, 4, N_LEN.N4⟩, ⟨note_t.NOTE_C, 5, N_LEN.N8⟩].get
          ⟨1, by decide⟩) ⟨5, 100, 0, 10, 0, false, false, true, 114⟩).2 ∧
    (playMelody 0 [⟨note_t.NOTE_A, 4, N_LEN.N4⟩, ⟨note_t.NOTE_C, 5, N_LEN.N8⟩]
        false 1 ⟨5, 100, 0, 10, 0, false, false, true, 114⟩).2 =
      (playMelody 0 [⟨note_t.NOTE_A, 4, N_LEN.N4⟩, ⟨note_t.NOTE_C, 5, N_LEN.N8⟩]
        false 1 ⟨5, 100, 0, 10, 1, false, false, true, 114⟩).2 ∧
    ((playMelody 0 [⟨note_t.NOTE_A, 4, N_LEN.N4⟩, ⟨note_t.NOTE_C, 5, N_LEN.N8⟩]
        false 1 ⟨5, 100, 0, 10, 0, false, false, false, 114⟩).1.noteCounter =
      if (if (false : Bool) = false then
            playNote 0 ([⟨note_t.NOTE_A, 4, N_LEN.N4⟩,
              ⟨note_t.NOTE_C, 5, N_LEN.N8⟩].getD 0 dummyNote)
              ⟨5, 100, 0, 10, 0, false, false, false, 114⟩
          else
            playNote 0 ([⟨note_t.NOTE_A, 4, N_LEN.N4⟩,
              ⟨note_t.NOTE_C, 5, N_LEN.N8⟩].getD 1 dummyNote)
              ⟨5, 100, 0, 10, 0, false, false, false, 114⟩).1.notePlayed
      then 0 + 1 else 0) :=
  ⟨(melody_note_selection 0 [⟨note_t.NOTE_A, 4, N_LEN.N4⟩, ⟨note_t.NOTE_C, 5, N_LEN.N8⟩]
      false 1 ⟨5, 100, 0, 10, 0, false, false, false, 114⟩ 1 (by decide)).1 rfl,
   (melody_note_selection 0 [⟨note_t.NOTE_A, 4, N_LEN.N4⟩, ⟨note_t.NOTE_C, 5, N_LEN.N8⟩]
      false 1 ⟨5, 100, 0, 10, 0, false, false, true, 114⟩ 1 (by decide)).2.1 rfl (by decide),
   (melody_note_selection 0 [⟨note_t.NOTE_A, 4, N_LEN.N4⟩, ⟨note_t.NOTE_C, 5, N_LEN.N8⟩]
      false 1 ⟨5, 100, 0, 10, 0, false, false, true, 114⟩ 1 (by decide)).2.2.1 rfl (by decide),
   (melody_note_selection 0 [⟨note_t.NOTE_A, 4, N_LEN.N4⟩, ⟨note_t.NOTE_C, 5, N_LEN.N8⟩]
      false 1 ⟨5, 100, 0, 10, 0, false, false, false, 114⟩ 1 (by decide)).2.2.2⟩

/-- C9 counterexample.  A single melody poll that starts a (non-rest) note
issues two tone-capability commands — the start-tone and the amplitude
command — before returning, not at most one. -/
theorem start_poll_two_commands :
    ((playMelody 0 [⟨note_t.NOTE_A, 4, N_LEN.N4⟩] false 0
        ⟨5, 100, 0, 10, 0, false, false, false, 114⟩).2.1).length = 2 := by
  decide

/-- C9 (amended): every single poll of the melody entry point or the
metronome entry point issues at most two tone-capability commands before
returning: a start-edge poll issues a start-tone command followed by one
amplitude command, and every poll that starts with a tone already sounding
issues at most one (silence) command. -/
theorem at_most_two_commands_per_poll (now : Nat) (m : List musicNote)
    (rpt : Bool) (r : Nat) (st : State) :
    (playMelody now m rpt r st).2.1.length ≤ 2 ∧
    (playBeats now st).2.length ≤ 2 ∧
    (st.started = true →
      (playMelody now m rpt r st).2.1.length ≤ 1 ∧
      (playBeats now st).2.length ≤ 1) := by
  have hnote : ∀ (n : musicNote) (s : State),
      (playNote now n s).2.1.length ≤ 2 ∧
      (s.started = true → (playNote now n s).2.1.length ≤ 1) := by
    intro n s
    simp only [playNote]
    split
    · simp
    · split
      · rename_i hnp hns
        constructor
        · simp
        · intro hs
          simp [hs] at hns
      · split <;> simp
  have hmel : (playMelody now m rpt r st).2.1.length ≤ 2 ∧
      (st.started = true → (playMelody now m rpt r st).2.1.length ≤ 1) := by
    simp only [playMelody]
    split
    · split <;> simp
    · split
      · exact (hnote _ { st with notePlayed := false })
      · exact (hnote _ { st with notePlayed := false })
  have hbeat : (playBeats now st).2.length ≤ 2 ∧
      (st.started = true → (playBeats now st).2.length ≤ 1) := by
    rcases hs : st.started with _ | _
    · rw [playBeats_not_started hs]
      refine ⟨by simp, fun h => by simp [hs] at h⟩
    · rw [playBeats_started_snd hs]
      refine ⟨?_, fun _ => ?_⟩ <;> split <;> simp
  exact ⟨hmel.1, hbeat.1, fun h => ⟨hmel.2 h, hbeat.2 h⟩⟩

/-- C9 witness: the amended theorem at a sounding quarter note polled
mid-note, with the started-state hypothesis discharged. -/
theorem at_most_two_commands_per_poll_witness :
    (playMelody 100 [⟨note_t.NOTE_A, 4, N_LEN.N4⟩] false 0
        ⟨5, 100, 0, 10, 0, true, false, false, 114⟩).2.1.length ≤ 2 ∧
    (playBeats 100 ⟨5, 100, 0, 10, 0, true, false, false, 114⟩).2.length ≤ 2 ∧
    (playMelody 100 [⟨note_t.NOTE_A, 4, N_LEN.N4⟩] false 0
        ⟨5, 100, 0, 10, 0, true, false, false, 114⟩).2.1.length ≤ 1 ∧
    (playBeats 100 ⟨5, 100, 0, 10, 0, true, false, false, 114⟩).2.length ≤ 1 :=
  ⟨(at_most_two_commands_per_poll 100 [⟨note_t.NOTE_A, 4, N_LEN.N4⟩] false 0
      ⟨5, 100, 0, 10, 0, true, false, false, 114⟩).1,
   (at_most_two_commands_per_poll 100 [⟨note_t.NOTE_A, 4, N_LEN.N4⟩] false 0
      ⟨5, 100, 0, 10, 0, true, false, false, 114⟩).2.1,
   (at_most_two_commands_per_poll 100 [⟨note_t.NOTE_A, 4, N_LEN.N4⟩] false 0
      ⟨5, 100, 0, 10, 0, true, false, false, 114⟩).2.2 rfl⟩

/-- C10 witness: a player on channel 5 triggers the metronome with the
frequency command on channel 0 and the amplitude command on channel 5. -/
theorem metronome_channel_mismatch_witness :
    (playBeats 0 ⟨5, 100, 0, 10, 0, false, false, false, 114⟩).2 =
      [Cmd.writeNote 0 note_t.NOTE_A 7, Cmd.write 5 100] ∧
    ∀ nt o, Cmd.writeNote 5 nt o ∉
      (playBeats 0 ⟨5, 100, 0, 10, 0, false, false, false, 114⟩).2 :=
  ⟨(metronome_channel_mismatch 0 ⟨5, 100, 0, 10, 0, false, false, false, 114⟩).1 rfl,
   (metronome_channel_mismatch 0 ⟨5, 100, 0, 10, 0, false, false, false, 114⟩).2.2
     rfl (by decide)⟩

end MelodyPlayer
